import Mathlib

/-!
# LDAP detection keywords (`src/rust/src/ldap/detect.rs`): shallow embedding

This file embeds the LDAP detection module of the repository in Lean and
proves the specified properties about it.  The embedded functions keep the
names of the Rust items they translate:

* `LdapIndex`, `DetectLdapRespOperationData`, `DetectLdapRespResultData` —
  the data types of the module;
* `aux_ldap_parse_protocol_resp_op`, `aux_ldap_parse_resp_result_code` —
  the option-string parsers;
* `get_ldap_result_code` — result-code extraction from a response message;
* `ldap_detect_request_operation_match`, `ldap_detect_responses_operation_match`,
  `ldap_detect_responses_count_match`, `ldap_detect_responses_result_code_match` —
  the transaction match functions (returning a C int, `1` for match);
* `ldap_tx_get_responses_error_msg` — the multi-buffer projection of the
  per-response diagnostic message.

External collaborators that are not part of the given sources (the protocol
type definitions in `ldap/types.rs`, the scalar constraint primitive in
`detect/uint.rs`, and the standard library's integer parsing) are modelled
from the specification, each with a doc comment saying so.  The scalar
constraint primitive is modelled extensionally: a parsed constraint is the
predicate it decides, and the parsing of a value-spec is a parameter of the
option parsers.

Machine integers are modelled as `Nat`/`Int` with explicit wrap-around where
the code casts (`as i32`, `as usize`, `as u32`).
-/

/-- Modelled from the spec: the payload common to every result-bearing
operation case (`LdapResult` in `ldap/types.rs`, outside the given sources):
a `resultCode : unsigned 32-bit` and a `diagnosticMessage : text`. -/
structure LdapResult where
  result_code : Nat
  diagnostic_message : String
deriving DecidableEq

/-- Modelled from the spec: `OperationVariant` (`ProtocolOp` in
`ldap/types.rs`, outside the given sources) is a closed tagged union whose
result-bearing cases are exactly `BindResponse`, `SearchResultDone`,
`ModifyResponse`, `AddResponse`, `DelResponse`, `ModDnResponse`,
`CompareResponse` and `ExtendedResponse`; the remaining cases carry neither a
result code nor a diagnostic message. -/
inductive ProtocolOp where
  | BindRequest
  | BindResponse (result : LdapResult)
  | UnbindRequest
  | SearchRequest
  | SearchResultEntry
  | SearchResultDone (result : LdapResult)
  | SearchResultReference
  | ModifyRequest
  | ModifyResponse (result : LdapResult)
  | AddRequest
  | AddResponse (result : LdapResult)
  | DelRequest
  | DelResponse (result : LdapResult)
  | ModDnRequest
  | ModDnResponse (result : LdapResult)
  | CompareRequest
  | CompareResponse (result : LdapResult)
  | AbandonRequest
  | ExtendedRequest
  | ExtendedResponse (result : LdapResult)
  | IntermediateResponse
deriving DecidableEq

/-- Modelled from the spec: every `OperationVariant` case carries an
`operationCode : unsigned 8-bit` tag (`ProtocolOp::to_u8` in
`ldap/types.rs`, outside the given sources); a total function, never
failing.  The codes are the protocol's application tags. -/
def ProtocolOp.to_u8 : ProtocolOp → Nat
  | .BindRequest => 0
  | .BindResponse _ => 1
  | .UnbindRequest => 2
  | .SearchRequest => 3
  | .SearchResultEntry => 4
  | .SearchResultDone _ => 5
  | .ModifyRequest => 6
  | .ModifyResponse _ => 7
  | .AddRequest => 8
  | .AddResponse _ => 9
  | .DelRequest => 10
  | .DelResponse _ => 11
  | .ModDnRequest => 12
  | .ModDnResponse _ => 13
  | .CompareRequest => 14
  | .CompareResponse _ => 15
  | .AbandonRequest => 16
  | .SearchResultReference => 19
  | .ExtendedRequest => 23
  | .ExtendedResponse _ => 24
  | .IntermediateResponse => 25

/-- Modelled from the spec: a response `Message` (`LdapMessage` in
`ldap/types.rs`, outside the given sources) carries one operation payload. -/
structure LdapMessage where
  protocol_op : ProtocolOp
deriving DecidableEq

/-- Modelled from the spec: a `Transaction` (`LdapTransaction` in
`ldap/ldap.rs`, outside the given sources) has an optional request and an
ordered sequence of responses. -/
structure LdapTransaction where
  request : Option LdapMessage
  responses : List LdapMessage

/-- Modelled from the spec: a parsed scalar/enum constraint
(`DetectUintData<T>` in `detect/uint.rs`, outside the given sources) is
opaque to this module; we model it extensionally as the predicate it
decides. -/
structure DetectUintData (α : Type) where
  test : α → Bool

/-- Modelled from the spec: the external scalar match primitive
(`rs_detect_u8_match` in `detect/uint.rs`): returns `1` (C int) when the
value satisfies the constraint and `0` otherwise. -/
def rs_detect_u8_match (arg : Nat) (ctx : DetectUintData Nat) : Int :=
  if ctx.test arg then 1 else 0

/-- Modelled from the spec: the external scalar match primitive
(`rs_detect_u32_match` in `detect/uint.rs`): returns `1` (C int) when the
value satisfies the constraint and `0` otherwise. -/
def rs_detect_u32_match (arg : Nat) (ctx : DetectUintData Nat) : Int :=
  if ctx.test arg then 1 else 0

/-- `enum LdapIndex` from `detect.rs`: the response selector.  `Index`
carries a Rust `i32`, modelled as an `Int` (the parser only ever produces
values in the `i32` range). -/
inductive LdapIndex where
  | Any
  | All
  | Index (i : Int)
deriving DecidableEq

/-- `struct DetectLdapRespOperationData` from `detect.rs`. -/
structure DetectLdapRespOperationData where
  du8 : DetectUintData Nat
  index : LdapIndex

/-- `struct DetectLdapRespResultData` from `detect.rs`. -/
structure DetectLdapRespResultData where
  du32 : DetectUintData Nat
  index : LdapIndex

/-- Splitting a character list at every comma, mirroring Rust's
`s.split(',').collect::<Vec<&str>>()`: an empty input yields one empty
part, and a trailing comma yields a trailing empty part. -/
def split_comma : List Char → List (List Char)
  | [] => [[]]
  | c :: rest =>
    if c = ',' then [] :: split_comma rest
    else
      match split_comma rest with
      | [] => [[c]]
      | p :: ps => (c :: p) :: ps

/-- Rust `s.split(',')` over a Lean `String`. -/
def strSplitComma (s : String) : List String :=
  (split_comma s.data).map String.mk

/-- Accumulator loop of decimal digit parsing: consumes the remaining
characters, failing on the first non-digit. -/
def digitsToNatAux (acc : Nat) : List Char → Option Nat
  | [] => some acc
  | c :: rest =>
    if c.isDigit then digitsToNatAux (acc * 10 + (c.toNat - 48)) rest
    else none

/-- Parses a non-empty run of decimal digits as a `Nat`. -/
def digitsToNat : List Char → Option Nat
  | [] => none
  | l => digitsToNatAux 0 l

/-- Modelled from the spec: base-10 signed 32-bit integer parsing
(`i32::from_str` of the Rust standard library, outside the given sources):
an optional single `+`/`-` sign followed by one or more decimal digits,
failing on any other character, an empty digit run, or a value outside the
`i32` range. -/
def i32_from_str (s : String) : Option Int :=
  match s.data with
  | '+' :: rest =>
    (digitsToNat rest).bind fun n =>
      if n ≤ 2 ^ 31 - 1 then some (n : Int) else none
  | '-' :: rest =>
    (digitsToNat rest).bind fun n =>
      if n ≤ 2 ^ 31 then some (-(n : Int)) else none
  | l =>
    (digitsToNat l).bind fun n =>
      if n ≤ 2 ^ 31 - 1 then some (n : Int) else none

/-- The selector-spec resolution shared by both option parsers in
`detect.rs` (the `match parts[1]` block): literal `"all"`, literal
`"any"`, or an `i32`. -/
def parseLdapIndex (s : String) : Option LdapIndex :=
  if s = "all" then some LdapIndex.All
  else if s = "any" then some LdapIndex.Any
  else (i32_from_str s).map LdapIndex.Index

/-- `aux_ldap_parse_protocol_resp_op` from `detect.rs`, parametrized by the
external value-spec primitive `detect_parse_uint_enum::<u8, ProtocolOpCode>`
(in `detect/uint.rs`, outside the given sources).  Splits on commas, rejects
more than two parts, resolves the optional selector part (defaulting to
`Any`), then hands the first part to the value primitive. -/
def aux_ldap_parse_protocol_resp_op
    (detect_parse_uint_enum_u8 : String → Option (DetectUintData Nat))
    (s : String) : Option DetectLdapRespOperationData :=
  let parts := strSplitComma s
  if parts.length > 2 then none
  else
    (if parts.length = 2 then parseLdapIndex (parts.getD 1 "") else some LdapIndex.Any).bind
      fun index =>
        (detect_parse_uint_enum_u8 (parts.getD 0 "")).bind fun du8 =>
          some { du8 := du8, index := index }

/-- `aux_ldap_parse_resp_result_code` from `detect.rs`, parametrized by the
external value-spec primitive `detect_parse_uint_enum::<u32, LdapResultCode>`
(in `detect/uint.rs`, outside the given sources).  Same structure as the
response-operation parser. -/
def aux_ldap_parse_resp_result_code
    (detect_parse_uint_enum_u32 : String → Option (DetectUintData Nat))
    (s : String) : Option DetectLdapRespResultData :=
  let parts := strSplitComma s
  if parts.length > 2 then none
  else
    (if parts.length = 2 then parseLdapIndex (parts.getD 1 "") else some LdapIndex.Any).bind
      fun index =>
        (detect_parse_uint_enum_u32 (parts.getD 0 "")).bind fun du32 =>
          some { du32 := du32, index := index }

/-- `get_ldap_result_code` from `detect.rs`: result-code extraction from a
response message; `some` for the eight result-bearing cases, `none` for
every other case. -/
def get_ldap_result_code (response : LdapMessage) : Option Nat :=
  match response.protocol_op with
  | .BindResponse req => some req.result_code
  | .SearchResultDone req => some req.result_code
  | .ModifyResponse req => some req.result_code
  | .AddResponse req => some req.result_code
  | .DelResponse req => some req.result_code
  | .ModDnResponse req => some req.result_code
  | .CompareResponse req => some req.result_code
  | .ExtendedResponse req => some req.result_code
  | _ => none

/-- Wrap-around of an `Int` into the `i32` value range, modelling Rust's
`as i32` cast and release-mode wrapping addition. -/
def i32_wrap (v : Int) : Int :=
  (v + 2 ^ 31) % 2 ^ 32 - 2 ^ 31

/-- Rust's `as usize` cast of an `i32` value on a 64-bit target: negative
values wrap to huge unsigned values. -/
def usize_of_i32 (v : Int) : Nat :=
  (v % (2 ^ 64 : Int)).toNat

/-- The index computation shared by the `LdapIndex::Index(idx)` arms of both
match functions in `detect.rs`:
`if idx < 0 { ((len as i32) + idx) as usize } else { idx as usize }`. -/
def resolved_index (len : Nat) (idx : Int) : Nat :=
  if idx < 0 then usize_of_i32 (i32_wrap (i32_wrap (len : Int) + idx))
  else idx.toNat

/-- `ldap_detect_request_operation_match` from `detect.rs`: `0` when the
transaction has no request, otherwise the scalar match of the request's
operation code. -/
def ldap_detect_request_operation_match
    (tx : LdapTransaction) (ctx : DetectUintData Nat) : Int :=
  match tx.request with
  | some request => rs_detect_u8_match request.protocol_op.to_u8 ctx
  | none => 0

/-- `ldap_detect_responses_operation_match` from `detect.rs`.  The `Any` and
`All` arms translate the early-return `for` loops over `tx.responses`; the
`Index` arm computes the resolved index, rejects it when
`tx.responses.len() <= index`, and otherwise tests the single addressed
response. -/
def ldap_detect_responses_operation_match
    (tx : LdapTransaction) (ctx : DetectLdapRespOperationData) : Int :=
  match ctx.index with
  | LdapIndex.Any =>
    if tx.responses.any (fun response =>
        rs_detect_u8_match response.protocol_op.to_u8 ctx.du8 == 1)
    then 1 else 0
  | LdapIndex.All =>
    if tx.responses.any (fun response =>
        rs_detect_u8_match response.protocol_op.to_u8 ctx.du8 == 0)
    then 0 else 1
  | LdapIndex.Index idx =>
    if h : tx.responses.length ≤ resolved_index tx.responses.length idx then 0
    else
      rs_detect_u8_match
        (tx.responses.get
          ⟨resolved_index tx.responses.length idx, Nat.lt_of_not_le h⟩).protocol_op.to_u8
        ctx.du8

/-- `ldap_detect_responses_count_match` from `detect.rs`: the scalar match of
`tx.responses.len() as u32`. -/
def ldap_detect_responses_count_match
    (tx : LdapTransaction) (ctx : DetectUintData Nat) : Int :=
  rs_detect_u32_match (tx.responses.length % 2 ^ 32) ctx

/-- `ldap_detect_responses_result_code_match` from `detect.rs`.  In the
`Any` and `All` loops a response whose result code cannot be extracted is
skipped (the `if let Some(rc)` test); the `Index` arm returns `0` for such a
response. -/
def ldap_detect_responses_result_code_match
    (tx : LdapTransaction) (ctx : DetectLdapRespResultData) : Int :=
  match ctx.index with
  | LdapIndex.Any =>
    if tx.responses.any (fun response =>
        match get_ldap_result_code response with
        | some rc => rs_detect_u32_match rc ctx.du32 == 1
        | none => false)
    then 1 else 0
  | LdapIndex.All =>
    if tx.responses.any (fun response =>
        match get_ldap_result_code response with
        | some rc => rs_detect_u32_match rc ctx.du32 == 0
        | none => false)
    then 0 else 1
  | LdapIndex.Index idx =>
    if h : tx.responses.length ≤ resolved_index tx.responses.length idx then 0
    else
      match
        get_ldap_result_code
          (tx.responses.get ⟨resolved_index tx.responses.length idx, Nat.lt_of_not_le h⟩) with
      | some rc => rs_detect_u32_match rc ctx.du32
      | none => 0

/-- `ldap_tx_get_responses_error_msg` from `detect.rs`, the multi-buffer
projection: `none` models the `false` return (no data for this local id);
`some s` models the `true` return with the buffer pointing at the text `s`
(the addressed response's diagnostic message). -/
def ldap_tx_get_responses_error_msg
    (tx : LdapTransaction) (local_id : Nat) : Option String :=
  if h : tx.responses.length ≤ local_id then none
  else
    match (tx.responses.get ⟨local_id, Nat.lt_of_not_le h⟩).protocol_op with
    | .BindResponse req => some req.diagnostic_message
    | .SearchResultDone req => some req.diagnostic_message
    | .ModifyResponse req => some req.diagnostic_message
    | .AddResponse req => some req.diagnostic_message
    | .DelResponse req => some req.diagnostic_message
    | .ModDnResponse req => some req.diagnostic_message
    | .CompareResponse req => some req.diagnostic_message
    | .ExtendedResponse req => some req.diagnostic_message
    | _ => none

/-! ## Helper definitions and lemmas -/

/-- Spec §3: `op` is the result-bearing case named by the clause, with
payload `res`. -/
def isResultBearingWith (op : ProtocolOp) (res : LdapResult) : Prop :=
  op = ProtocolOp.BindResponse res ∨ op = ProtocolOp.SearchResultDone res ∨
  op = ProtocolOp.ModifyResponse res ∨ op = ProtocolOp.AddResponse res ∨
  op = ProtocolOp.DelResponse res ∨ op = ProtocolOp.ModDnResponse res ∨
  op = ProtocolOp.CompareResponse res ∨ op = ProtocolOp.ExtendedResponse res

/-- Spec §3: `op` is one of the eight result-bearing cases. -/
def isResultBearing (op : ProtocolOp) : Prop :=
  ∃ res, isResultBearingWith op res

lemma rs_detect_u8_match_eq_one_iff (a : Nat) (c : DetectUintData Nat) :
    rs_detect_u8_match a c = 1 ↔ c.test a = true := by
  unfold rs_detect_u8_match
  by_cases h : c.test a <;> simp [h]

lemma rs_detect_u8_match_zero_or_one (a : Nat) (c : DetectUintData Nat) :
    rs_detect_u8_match a c = 0 ∨ rs_detect_u8_match a c = 1 := by
  unfold rs_detect_u8_match
  by_cases h : c.test a <;> simp [h]

lemma rs_detect_u32_match_eq_one_iff (a : Nat) (c : DetectUintData Nat) :
    rs_detect_u32_match a c = 1 ↔ c.test a = true := by
  unfold rs_detect_u32_match
  by_cases h : c.test a <;> simp [h]

lemma rs_detect_u32_match_zero_or_one (a : Nat) (c : DetectUintData Nat) :
    rs_detect_u32_match a c = 0 ∨ rs_detect_u32_match a c = 1 := by
  unfold rs_detect_u32_match
  by_cases h : c.test a <;> simp [h]

lemma resolved_index_of_nonneg (len : Nat) (idx : Int) (h : 0 ≤ idx) :
    resolved_index len idx = idx.toNat := by
  unfold resolved_index
  rw [if_neg (by omega)]

lemma resolved_index_of_neg_inrange (len : Nat) (idx : Int)
    (hlen : len < 2 ^ 31) (h1 : idx < 0) (h2 : -(2 ^ 31) ≤ idx)
    (h3 : 0 ≤ (len : Int) + idx) :
    (resolved_index len idx : Int) = (len : Int) + idx := by
  unfold resolved_index usize_of_i32 i32_wrap
  rw [if_pos h1]
  omega

lemma resolved_index_of_neg_oor (len : Nat) (idx : Int)
    (hlen : len < 2 ^ 31) (h1 : idx < 0) (h2 : -(2 ^ 31) ≤ idx)
    (h3 : (len : Int) + idx < 0) :
    len ≤ resolved_index len idx := by
  unfold resolved_index usize_of_i32 i32_wrap
  rw [if_pos h1]
  omega

/-- `split_comma` never returns an empty list of parts. -/
lemma split_comma_ne_nil (l : List Char) : split_comma l ≠ [] := by
  cases l with
  | nil => simp [split_comma]
  | cons c rest =>
    unfold split_comma
    by_cases h : c = ','
    · simp [h]
    · rw [if_neg h]
      rcases hrest : split_comma rest with _ | ⟨p, ps⟩ <;> simp

/-- The number of comma-separated parts is one more than the number of
commas. -/
lemma split_comma_length (l : List Char) :
    (split_comma l).length = l.count ',' + 1 := by
  induction l with
  | nil => rfl
  | cons c rest ih =>
    unfold split_comma
    by_cases h : c = ','
    · subst h
      simp [List.count_cons, ih]
    · rw [if_neg h]
      rcases hrest : split_comma rest with _ | ⟨p, ps⟩
      · have := split_comma_ne_nil rest
        exact absurd hrest this
      · have : (split_comma rest).length = rest.count ',' + 1 := ih
        rw [hrest] at this
        simp only [List.length_cons] at this ⊢
        simp [List.count_cons, h, this]

lemma strSplitComma_length (s : String) :
    (strSplitComma s).length = s.data.count ',' + 1 := by
  unfold strSplitComma
  rw [List.length_map, split_comma_length]

lemma ldap_tx_get_responses_error_msg_eq (tx : LdapTransaction) (local_id : Nat)
    (h : local_id < tx.responses.length) :
    ldap_tx_get_responses_error_msg tx local_id =
      match (tx.responses.get ⟨local_id, h⟩).protocol_op with
      | .BindResponse req => some req.diagnostic_message
      | .SearchResultDone req => some req.diagnostic_message
      | .ModifyResponse req => some req.diagnostic_message
      | .AddResponse req => some req.diagnostic_message
      | .DelResponse req => some req.diagnostic_message
      | .ModDnResponse req => some req.diagnostic_message
      | .CompareResponse req => some req.diagnostic_message
      | .ExtendedResponse req => some req.diagnostic_message
      | _ => none := by
  unfold ldap_tx_get_responses_error_msg
  rw [dif_neg (Nat.not_le.mpr h)]

/-! ## Claim theorems -/

/-- C9: for every transaction whose optional request is absent, the
request-operation match returns `0`; when the request is present it returns
the scalar match of the request's operation code, i.e. `1` exactly when that
code satisfies the parsed unsigned-8-bit constraint. -/
theorem c9_request_operation_match (tx : LdapTransaction) (ctx : DetectUintData Nat) :
    (tx.request = none → ldap_detect_request_operation_match tx ctx = 0) ∧
    (∀ req, tx.request = some req →
      ldap_detect_request_operation_match tx ctx =
        rs_detect_u8_match req.protocol_op.to_u8 ctx ∧
      (ldap_detect_request_operation_match tx ctx = 1 ↔
        ctx.test req.protocol_op.to_u8 = true)) := by
  unfold ldap_detect_request_operation_match
  constructor
  · intro h
    rw [h]
  · intro req h
    rw [h]
    exact ⟨rfl, rs_detect_u8_match_eq_one_iff _ _⟩

/-- C10: the responses-count match is exactly the unsigned-32-bit scalar
match of the number of responses (taken as a `u32`, i.e. modulo `2^32`); it
involves no selector and depends on the transaction only through the
response count. -/
theorem c10_responses_count_match (tx : LdapTransaction) (ctx : DetectUintData Nat) :
    ldap_detect_responses_count_match tx ctx =
      rs_detect_u32_match (tx.responses.length % 2 ^ 32) ctx ∧
    (ldap_detect_responses_count_match tx ctx = 1 ↔
      ctx.test (tx.responses.length % 2 ^ 32) = true) ∧
    (∀ tx' : LdapTransaction, tx'.responses.length = tx.responses.length →
      ldap_detect_responses_count_match tx' ctx =
        ldap_detect_responses_count_match tx ctx) := by
  refine ⟨rfl, rs_detect_u32_match_eq_one_iff _ _, ?_⟩
  intro tx' h
  unfold ldap_detect_responses_count_match
  rw [h]

/-- C6: result-code extraction returns `some` exactly on the eight
result-bearing operation cases — and there the extracted value is that
case's result code — and `none` on every other case. -/
theorem c6_result_code_extraction (m : LdapMessage) :
    ((get_ldap_result_code m).isSome = true ↔ isResultBearing m.protocol_op) ∧
    (∀ res : LdapResult, isResultBearingWith m.protocol_op res →
      get_ldap_result_code m = some res.result_code) := by
  obtain ⟨op⟩ := m
  cases op <;>
    simp [get_ldap_result_code, isResultBearing, isResultBearingWith]

/-- C7: the multi-buffer text projection yields no data exactly when the
local index is out of range or the addressed response's operation case is
not result-bearing; otherwise it yields that response's diagnostic
message. -/
theorem c7_error_msg_projection (tx : LdapTransaction) (local_id : Nat) :
    (tx.responses.length ≤ local_id →
      ldap_tx_get_responses_error_msg tx local_id = none) ∧
    (∀ h : local_id < tx.responses.length,
      (¬ isResultBearing (tx.responses.get ⟨local_id, h⟩).protocol_op →
        ldap_tx_get_responses_error_msg tx local_id = none) ∧
      (∀ res : LdapResult,
        isResultBearingWith (tx.responses.get ⟨local_id, h⟩).protocol_op res →
          ldap_tx_get_responses_error_msg tx local_id =
            some res.diagnostic_message)) := by
  constructor
  · intro h
    unfold ldap_tx_get_responses_error_msg
    rw [dif_pos h]
  · intro h
    rw [ldap_tx_get_responses_error_msg_eq tx local_id h]
    generalize (tx.responses.get ⟨local_id, h⟩).protocol_op = op
    cases op <;>
      simp [isResultBearing, isResultBearingWith]

lemma rc_loop_pred_one_iff (du32 : DetectUintData Nat) (r : LdapMessage) :
    ((match get_ldap_result_code r with
      | some rc => rs_detect_u32_match rc du32 == 1
      | none => false) = true) ↔
    ∃ rc, get_ldap_result_code r = some rc ∧ rs_detect_u32_match rc du32 = 1 := by
  rcases h : get_ldap_result_code r with _ | rc <;> simp [h]

lemma rc_loop_pred_zero_iff (du32 : DetectUintData Nat) (r : LdapMessage) :
    ((match get_ldap_result_code r with
      | some rc => rs_detect_u32_match rc du32 == 0
      | none => false) = true) ↔
    ∃ rc, get_ldap_result_code r = some rc ∧ rs_detect_u32_match rc du32 = 0 := by
  rcases h : get_ldap_result_code r with _ | rc <;> simp [h]

/-- C3: under the `Any` selector both the responses-operation match and the
responses-result-code match return `1` exactly when some response, in order,
yields an applicable field value satisfying the constraint; both only ever
return `0` or `1`, and both return `0` on an empty response sequence. -/
theorem c3_any_selector (tx : LdapTransaction) (du8 du32 : DetectUintData Nat) :
    (ldap_detect_responses_operation_match tx ⟨du8, LdapIndex.Any⟩ = 1 ↔
      ∃ r ∈ tx.responses, rs_detect_u8_match r.protocol_op.to_u8 du8 = 1) ∧
    (ldap_detect_responses_result_code_match tx ⟨du32, LdapIndex.Any⟩ = 1 ↔
      ∃ r ∈ tx.responses, ∃ rc, get_ldap_result_code r = some rc ∧
        rs_detect_u32_match rc du32 = 1) ∧
    (ldap_detect_responses_operation_match tx ⟨du8, LdapIndex.Any⟩ = 0 ∨
      ldap_detect_responses_operation_match tx ⟨du8, LdapIndex.Any⟩ = 1) ∧
    (ldap_detect_responses_result_code_match tx ⟨du32, LdapIndex.Any⟩ = 0 ∨
      ldap_detect_responses_result_code_match tx ⟨du32, LdapIndex.Any⟩ = 1) ∧
    (tx.responses = [] →
      ldap_detect_responses_operation_match tx ⟨du8, LdapIndex.Any⟩ = 0 ∧
      ldap_detect_responses_result_code_match tx ⟨du32, LdapIndex.Any⟩ = 0) := by
  unfold ldap_detect_responses_operation_match ldap_detect_responses_result_code_match
  refine ⟨?_, ?_, ?_, ?_, ?_⟩
  · by_cases hb : tx.responses.any (fun r => rs_detect_u8_match r.protocol_op.to_u8 du8 == 1)
    · rw [if_pos hb]
      rw [List.any_eq_true] at hb
      obtain ⟨r, hr, hpred⟩ := hb
      rw [beq_iff_eq] at hpred
      exact ⟨fun _ => ⟨r, hr, hpred⟩, fun _ => rfl⟩
    · rw [if_neg hb]
      constructor
      · intro h
        exact absurd h (by norm_num)
      · rintro ⟨r, hr, hone⟩
        exfalso
        apply hb
        rw [List.any_eq_true]
        exact ⟨r, hr, beq_iff_eq.mpr hone⟩
  · by_cases hb : tx.responses.any (fun r =>
        match get_ldap_result_code r with
        | some rc => rs_detect_u32_match rc du32 == 1
        | none => false)
    · rw [if_pos hb]
      rw [List.any_eq_true] at hb
      obtain ⟨r, hr, hpred⟩ := hb
      rw [rc_loop_pred_one_iff] at hpred
      exact ⟨fun _ => ⟨r, hr, hpred⟩, fun _ => rfl⟩
    · rw [if_neg hb]
      constructor
      · intro h
        exact absurd h (by norm_num)
      · rintro ⟨r, hr, rc, hrc, hone⟩
        exfalso
        apply hb
        rw [List.any_eq_true]
        exact ⟨r, hr, (rc_loop_pred_one_iff du32 r).mpr ⟨rc, hrc, hone⟩⟩
  · by_cases hb : tx.responses.any (fun r => rs_detect_u8_match r.protocol_op.to_u8 du8 == 1)
    · rw [if_pos hb]
      right
      rfl
    · rw [if_neg hb]
      left
      rfl
  · by_cases hb : tx.responses.any (fun r =>
        match get_ldap_result_code r with
        | some rc => rs_detect_u32_match rc du32 == 1
        | none => false)
    · rw [if_pos hb]
      right
      rfl
    · rw [if_neg hb]
      left
      rfl
  · intro h
    simp [h]

/-- C2: under the `All` selector the responses-result-code match returns `1`
exactly when every response from which a result code can be extracted
satisfies the constraint (responses without a result code are skipped), `0`
exactly when some response carries a failing result code; in particular it
returns `1` on an empty sequence and on a sequence of only
non-result-bearing responses. -/
theorem c2_all_selector (tx : LdapTransaction) (du32 : DetectUintData Nat) :
    (ldap_detect_responses_result_code_match tx ⟨du32, LdapIndex.All⟩ = 1 ↔
      ∀ r ∈ tx.responses, ∀ rc, get_ldap_result_code r = some rc →
        rs_detect_u32_match rc du32 = 1) ∧
    (ldap_detect_responses_result_code_match tx ⟨du32, LdapIndex.All⟩ = 0 ↔
      ∃ r ∈ tx.responses, ∃ rc, get_ldap_result_code r = some rc ∧
        rs_detect_u32_match rc du32 = 0) ∧
    (tx.responses = [] →
      ldap_detect_responses_result_code_match tx ⟨du32, LdapIndex.All⟩ = 1) ∧
    ((∀ r ∈ tx.responses, get_ldap_result_code r = none) →
      ldap_detect_responses_result_code_match tx ⟨du32, LdapIndex.All⟩ = 1) := by
  unfold ldap_detect_responses_result_code_match
  refine ⟨?_, ?_, ?_, ?_⟩
  · by_cases hb : tx.responses.any (fun r =>
        match get_ldap_result_code r with
        | some rc => rs_detect_u32_match rc du32 == 0
        | none => false)
    · rw [if_pos hb]
      rw [List.any_eq_true] at hb
      obtain ⟨r, hr, hpred⟩ := hb
      rw [rc_loop_pred_zero_iff] at hpred
      obtain ⟨rc, hrc, hzero⟩ := hpred
      constructor
      · intro h
        exact absurd h (by norm_num)
      · intro hall
        have hone := hall r hr rc hrc
        rw [hone] at hzero
        exact absurd hzero (by norm_num)
    · rw [if_neg hb]
      constructor
      · intro _ r hr rc hrc
        rcases rs_detect_u32_match_zero_or_one rc du32 with h0 | h1
        · exfalso
          apply hb
          rw [List.any_eq_true]
          exact ⟨r, hr, (rc_loop_pred_zero_iff du32 r).mpr ⟨rc, hrc, h0⟩⟩
        · exact h1
      · intro _
        rfl
  · by_cases hb : tx.responses.any (fun r =>
        match get_ldap_result_code r with
        | some rc => rs_detect_u32_match rc du32 == 0
        | none => false)
    · rw [if_pos hb]
      rw [List.any_eq_true] at hb
      obtain ⟨r, hr, hpred⟩ := hb
      rw [rc_loop_pred_zero_iff] at hpred
      obtain ⟨rc, hrc, hzero⟩ := hpred
      exact ⟨fun _ => ⟨r, hr, rc, hrc, hzero⟩, fun _ => rfl⟩
    · rw [if_neg hb]
      constructor
      · intro h
        exact absurd h (by norm_num)
      · rintro ⟨r, hr, rc, hrc, hzero⟩
        exfalso
        apply hb
        rw [List.any_eq_true]
        exact ⟨r, hr, (rc_loop_pred_zero_iff du32 r).mpr ⟨rc, hrc, hzero⟩⟩
  · intro h
    simp [h]
  · intro hall
    have hb : ¬ tx.responses.any (fun r =>
        match get_ldap_result_code r with
        | some rc => rs_detect_u32_match rc du32 == 0
        | none => false) = true := by
      rw [List.any_eq_true]
      rintro ⟨r, hr, hpred⟩
      rw [rc_loop_pred_zero_iff] at hpred
      obtain ⟨rc, hrc, _⟩ := hpred
      rw [hall r hr] at hrc
      exact Option.noConfusion hrc
    rw [if_neg hb]

lemma op_match_index_oor (tx : LdapTransaction) (du8 : DetectUintData Nat) (idx : Int)
    (h : tx.responses.length ≤ resolved_index tx.responses.length idx) :
    ldap_detect_responses_operation_match tx ⟨du8, LdapIndex.Index idx⟩ = 0 := by
  unfold ldap_detect_responses_operation_match
  dsimp only
  rw [dif_pos h]

lemma rc_match_index_oor (tx : LdapTransaction) (du32 : DetectUintData Nat) (idx : Int)
    (h : tx.responses.length ≤ resolved_index tx.responses.length idx) :
    ldap_detect_responses_result_code_match tx ⟨du32, LdapIndex.Index idx⟩ = 0 := by
  unfold ldap_detect_responses_result_code_match
  dsimp only
  rw [dif_pos h]

lemma op_match_index_hit (tx : LdapTransaction) (du8 : DetectUintData Nat) (idx : Int)
    (k : Nat) (hk : k < tx.responses.length)
    (h : resolved_index tx.responses.length idx = k) :
    ldap_detect_responses_operation_match tx ⟨du8, LdapIndex.Index idx⟩ =
      rs_detect_u8_match (tx.responses.get ⟨k, hk⟩).protocol_op.to_u8 du8 := by
  subst h
  unfold ldap_detect_responses_operation_match
  dsimp only
  rw [dif_neg (Nat.not_le.mpr hk)]

lemma rc_match_index_hit (tx : LdapTransaction) (du32 : DetectUintData Nat) (idx : Int)
    (k : Nat) (hk : k < tx.responses.length)
    (h : resolved_index tx.responses.length idx = k) :
    ldap_detect_responses_result_code_match tx ⟨du32, LdapIndex.Index idx⟩ =
      (match get_ldap_result_code (tx.responses.get ⟨k, hk⟩) with
       | some rc => rs_detect_u32_match rc du32
       | none => 0) := by
  subst h
  unfold ldap_detect_responses_result_code_match
  dsimp only
  rw [dif_neg (Nat.not_le.mpr hk)]

/-- C1: under an `Index i` selector, both the responses-operation and the
responses-result-code match resolve the index as `i` for `i ≥ 0` and as
`len(responses) + i` for `i < 0`; they return `0` whenever the resolved
index is negative or at least `len(responses)`, and otherwise evaluate the
constraint on exactly the addressed response (the result-code match
returning `0` when no result code can be extracted from it). -/
theorem c1_index_selector (tx : LdapTransaction) (du8 du32 : DetectUintData Nat)
    (idx : Int) (hlen : tx.responses.length < 2 ^ 31)
    (hlo : -(2 ^ 31) ≤ idx) (hhi : idx < 2 ^ 31) :
    (((if 0 ≤ idx then idx else (tx.responses.length : Int) + idx) < 0 ∨
        (tx.responses.length : Int) ≤
          (if 0 ≤ idx then idx else (tx.responses.length : Int) + idx)) →
      ldap_detect_responses_operation_match tx ⟨du8, LdapIndex.Index idx⟩ = 0 ∧
      ldap_detect_responses_result_code_match tx ⟨du32, LdapIndex.Index idx⟩ = 0) ∧
    (∀ (k : Nat) (hk : k < tx.responses.length),
      (k : Int) = (if 0 ≤ idx then idx else (tx.responses.length : Int) + idx) →
      ldap_detect_responses_operation_match tx ⟨du8, LdapIndex.Index idx⟩ =
        rs_detect_u8_match (tx.responses.get ⟨k, hk⟩).protocol_op.to_u8 du8 ∧
      ldap_detect_responses_result_code_match tx ⟨du32, LdapIndex.Index idx⟩ =
        (match get_ldap_result_code (tx.responses.get ⟨k, hk⟩) with
         | some rc => rs_detect_u32_match rc du32
         | none => 0)) := by
  constructor
  · intro hoor
    have hle : tx.responses.length ≤ resolved_index tx.responses.length idx := by
      by_cases hpos : 0 ≤ idx
      · rw [if_pos hpos] at hoor
        have heq := resolved_index_of_nonneg tx.responses.length idx hpos
        rcases hoor with h | h
        · omega
        · omega
      · rw [if_neg hpos] at hoor
        have h3 : (tx.responses.length : Int) + idx < 0 := by
          rcases hoor with h | h
          · exact h
          · omega
        exact resolved_index_of_neg_oor _ _ hlen (by omega) hlo h3
    exact ⟨op_match_index_oor tx du8 idx hle, rc_match_index_oor tx du32 idx hle⟩
  · intro k hk hkeq
    have hres : resolved_index tx.responses.length idx = k := by
      by_cases hpos : 0 ≤ idx
      · rw [if_pos hpos] at hkeq
        have heq := resolved_index_of_nonneg tx.responses.length idx hpos
        omega
      · rw [if_neg hpos] at hkeq
        have h3 : 0 ≤ (tx.responses.length : Int) + idx := by omega
        have heq := resolved_index_of_neg_inrange tx.responses.length idx hlen
          (by omega) hlo h3
        omega
    exact ⟨op_match_index_hit tx du8 idx k hk hres,
      rc_match_index_hit tx du32 idx k hk hres⟩

lemma op_match_zero_or_one (tx : LdapTransaction) (ctx : DetectLdapRespOperationData) :
    ldap_detect_responses_operation_match tx ctx = 0 ∨
      ldap_detect_responses_operation_match tx ctx = 1 := by
  obtain ⟨du8, sel⟩ := ctx
  cases sel with
  | Any =>
    unfold ldap_detect_responses_operation_match
    dsimp only
    by_cases hb : tx.responses.any (fun r => rs_detect_u8_match r.protocol_op.to_u8 du8 == 1)
    · rw [if_pos hb]
      right
      rfl
    · rw [if_neg hb]
      left
      rfl
  | All =>
    unfold ldap_detect_responses_operation_match
    dsimp only
    by_cases hb : tx.responses.any (fun r => rs_detect_u8_match r.protocol_op.to_u8 du8 == 0)
    · rw [if_pos hb]
      left
      rfl
    · rw [if_neg hb]
      right
      rfl
  | Index idx =>
    unfold ldap_detect_responses_operation_match
    dsimp only
    by_cases hc : tx.responses.length ≤ resolved_index tx.responses.length idx
    · rw [dif_pos hc]
      left
      rfl
    · rw [dif_neg hc]
      exact rs_detect_u8_match_zero_or_one _ _

lemma rc_match_zero_or_one (tx : LdapTransaction) (ctx : DetectLdapRespResultData) :
    ldap_detect_responses_result_code_match tx ctx = 0 ∨
      ldap_detect_responses_result_code_match tx ctx = 1 := by
  obtain ⟨du32, sel⟩ := ctx
  cases sel with
  | Any =>
    unfold ldap_detect_responses_result_code_match
    dsimp only
    by_cases hb : tx.responses.any (fun r =>
        match get_ldap_result_code r with
        | some rc => rs_detect_u32_match rc du32 == 1
        | none => false)
    · rw [if_pos hb]
      right
      rfl
    · rw [if_neg hb]
      left
      rfl
  | All =>
    unfold ldap_detect_responses_result_code_match
    dsimp only
    by_cases hb : tx.responses.any (fun r =>
        match get_ldap_result_code r with
        | some rc => rs_detect_u32_match rc du32 == 0
        | none => false)
    · rw [if_pos hb]
      left
      rfl
    · rw [if_neg hb]
      right
      rfl
  | Index idx =>
    unfold ldap_detect_responses_result_code_match
    dsimp only
    by_cases hc : tx.responses.length ≤ resolved_index tx.responses.length idx
    · rw [dif_pos hc]
      left
      rfl
    · rw [dif_neg hc]
      rcases hg : get_ldap_result_code
          (tx.responses.get ⟨resolved_index tx.responses.length idx,
            Nat.lt_of_not_le hc⟩) with _ | rc
      · left
        rfl
      · exact rs_detect_u32_match_zero_or_one _ _

/-- C8: on every transaction shape the match functions are total with a
boolean (0/1) outcome, and for a negative index whose spec-level resolution
`len + i` is below zero, the wrapped `usize` index is at least the response
count, so the range check rejects it and both matches return `0` — the
in-bounds list access in the embedding witnesses that no out-of-bounds
access occurs. -/
theorem c8_no_panic (tx : LdapTransaction) (du8 du32 : DetectUintData Nat)
    (sel : LdapIndex) (hlen : tx.responses.length < 2 ^ 31) :
    (ldap_detect_responses_operation_match tx ⟨du8, sel⟩ = 0 ∨
      ldap_detect_responses_operation_match tx ⟨du8, sel⟩ = 1) ∧
    (ldap_detect_responses_result_code_match tx ⟨du32, sel⟩ = 0 ∨
      ldap_detect_responses_result_code_match tx ⟨du32, sel⟩ = 1) ∧
    (∀ idx : Int, sel = LdapIndex.Index idx → -(2 ^ 31) ≤ idx → idx < 0 →
      (tx.responses.length : Int) + idx < 0 →
      tx.responses.length ≤ resolved_index tx.responses.length idx ∧
      ldap_detect_responses_operation_match tx ⟨du8, sel⟩ = 0 ∧
      ldap_detect_responses_result_code_match tx ⟨du32, sel⟩ = 0) := by
  refine ⟨op_match_zero_or_one tx ⟨du8, sel⟩, rc_match_zero_or_one tx ⟨du32, sel⟩, ?_⟩
  intro idx hsel hlo hneg hoor
  subst hsel
  have hle := resolved_index_of_neg_oor tx.responses.length idx hlen hneg hlo hoor
  exact ⟨hle, op_match_index_oor tx du8 idx hle, rc_match_index_oor tx du32 idx hle⟩

/-- C5: the selector-spec resolves to `All` exactly on the literal string
`"all"`, to `Any` exactly on the literal `"any"` (both case-sensitive exact
matches), to `Index n` exactly when the text parses as a base-10 signed
32-bit integer `n`, and fails on every other string. -/
theorem c5_selector_resolution (s : String) :
    (parseLdapIndex s = some LdapIndex.All ↔ s = "all") ∧
    (parseLdapIndex s = some LdapIndex.Any ↔ s = "any") ∧
    (∀ n : Int, parseLdapIndex s = some (LdapIndex.Index n) ↔ i32_from_str s = some n) ∧
    (parseLdapIndex s = none ↔ s ≠ "all" ∧ s ≠ "any" ∧ i32_from_str s = none) := by
  by_cases h1 : s = "all"
  · subst h1
    have hall : i32_from_str "all" = none := by decide
    have hne : ("all" : String) ≠ "any" := by decide
    refine ⟨by simp [parseLdapIndex], ?_, ?_, ?_⟩
    · simp [parseLdapIndex, hne]
    · intro n
      simp [parseLdapIndex, hall]
    · simp [parseLdapIndex]
  · by_cases h2 : s = "any"
    · subst h2
      have hany : i32_from_str "any" = none := by decide
      have hne : ("any" : String) ≠ "all" := by decide
      refine ⟨?_, by simp [parseLdapIndex, hne], ?_, ?_⟩
      · simp [parseLdapIndex, hne]
      · intro n
        simp [parseLdapIndex, hne, hany]
      · simp [parseLdapIndex, hne]
    · refine ⟨?_, ?_, ?_, ?_⟩
      · rcases hi : i32_from_str s with _ | n <;>
          simp [parseLdapIndex, h1, h2, hi]
      · rcases hi : i32_from_str s with _ | n <;>
          simp [parseLdapIndex, h1, h2, hi]
      · intro n
        rcases hi : i32_from_str s with _ | m <;>
          simp [parseLdapIndex, h1, h2, hi]
      · rcases hi : i32_from_str s with _ | n <;>
          simp [parseLdapIndex, h1, h2, hi]

/-- C4: both option parsers fail exactly when the option string contains two
or more commas, or the selector part after a single comma does not resolve,
or the value part is rejected by the scalar/enum primitive; with no comma
the selector defaults to `Any`; on success the parsed option pairs the
scalar constraint returned by the primitive with the resolved selector. -/
theorem c4_option_grammar (pu8 pu32 : String → Option (DetectUintData Nat)) (s : String) :
    (2 ≤ s.data.count ',' →
      aux_ldap_parse_protocol_resp_op pu8 s = none ∧
      aux_ldap_parse_resp_result_code pu32 s = none) ∧
    (s.data.count ',' = 1 → parseLdapIndex ((strSplitComma s).getD 1 "") = none →
      aux_ldap_parse_protocol_resp_op pu8 s = none ∧
      aux_ldap_parse_resp_result_code pu32 s = none) ∧
    (pu8 ((strSplitComma s).getD 0 "") = none →
      aux_ldap_parse_protocol_resp_op pu8 s = none) ∧
    (pu32 ((strSplitComma s).getD 0 "") = none →
      aux_ldap_parse_resp_result_code pu32 s = none) ∧
    (s.data.count ',' = 0 →
      ∀ c8, pu8 ((strSplitComma s).getD 0 "") = some c8 →
        aux_ldap_parse_protocol_resp_op pu8 s = some ⟨c8, LdapIndex.Any⟩) ∧
    (s.data.count ',' = 0 →
      ∀ c32, pu32 ((strSplitComma s).getD 0 "") = some c32 →
        aux_ldap_parse_resp_result_code pu32 s = some ⟨c32, LdapIndex.Any⟩) ∧
    (s.data.count ',' = 1 →
      ∀ sel, parseLdapIndex ((strSplitComma s).getD 1 "") = some sel →
        ∀ c8, pu8 ((strSplitComma s).getD 0 "") = some c8 →
          aux_ldap_parse_protocol_resp_op pu8 s = some ⟨c8, sel⟩) ∧
    (s.data.count ',' = 1 →
      ∀ sel, parseLdapIndex ((strSplitComma s).getD 1 "") = some sel →
        ∀ c32, pu32 ((strSplitComma s).getD 0 "") = some c32 →
          aux_ldap_parse_resp_result_code pu32 s = some ⟨c32, sel⟩) := by
  have hp := strSplitComma_length s
  refine ⟨?_, ?_, ?_, ?_, ?_, ?_, ?_, ?_⟩
  · intro h2
    have hl : (strSplitComma s).length > 2 := by omega
    constructor
    · unfold aux_ldap_parse_protocol_resp_op
      dsimp only
      rw [if_pos hl]
    · unfold aux_ldap_parse_resp_result_code
      dsimp only
      rw [if_pos hl]
  · intro h1 hsel
    have hl : ¬ (strSplitComma s).length > 2 := by omega
    have hl2 : (strSplitComma s).length = 2 := by omega
    constructor
    · unfold aux_ldap_parse_protocol_resp_op
      dsimp only
      rw [if_neg hl, if_pos hl2, hsel]
      rfl
    · unfold aux_ldap_parse_resp_result_code
      dsimp only
      rw [if_neg hl, if_pos hl2, hsel]
      rfl
  · intro hnone
    unfold aux_ldap_parse_protocol_resp_op
    dsimp only
    by_cases hl : (strSplitComma s).length > 2
    · rw [if_pos hl]
    · rw [if_neg hl]
      rcases hidx : (if (strSplitComma s).length = 2
          then parseLdapIndex ((strSplitComma s).getD 1 "")
          else some LdapIndex.Any) with _ | sel
      · rfl
      · dsimp only [Option.bind]
        rw [hnone]
  · intro hnone
    unfold aux_ldap_parse_resp_result_code
    dsimp only
    by_cases hl : (strSplitComma s).length > 2
    · rw [if_pos hl]
    · rw [if_neg hl]
      rcases hidx : (if (strSplitComma s).length = 2
          then parseLdapIndex ((strSplitComma s).getD 1 "")
          else some LdapIndex.Any) with _ | sel
      · rfl
      · dsimp only [Option.bind]
        rw [hnone]
  · intro h0 c8 hc8
    have hl : ¬ (strSplitComma s).length > 2 := by omega
    have hl2 : ¬ (strSplitComma s).length = 2 := by omega
    unfold aux_ldap_parse_protocol_resp_op
    dsimp only
    rw [if_neg hl, if_neg hl2]
    dsimp only [Option.bind]
    rw [hc8]
  · intro h0 c32 hc32
    have hl : ¬ (strSplitComma s).length > 2 := by omega
    have hl2 : ¬ (strSplitComma s).length = 2 := by omega
    unfold aux_ldap_parse_resp_result_code
    dsimp only
    rw [if_neg hl, if_neg hl2]
    dsimp only [Option.bind]
    rw [hc32]
  · intro h1 sel hsel c8 hc8
    have hl : ¬ (strSplitComma s).length > 2 := by omega
    have hl2 : (strSplitComma s).length = 2 := by omega
    unfold aux_ldap_parse_protocol_resp_op
    dsimp only
    rw [if_neg hl, if_pos hl2, hsel]
    dsimp only [Option.bind]
    rw [hc8]
  · intro h1 sel hsel c32 hc32
    have hl : ¬ (strSplitComma s).length > 2 := by omega
    have hl2 : (strSplitComma s).length = 2 := by omega
    unfold aux_ldap_parse_resp_result_code
    dsimp only
    rw [if_neg hl, if_pos hl2, hsel]
    dsimp only [Option.bind]
    rw [hc32]

/-- A concrete sample transaction for the witnesses: three responses, the
first and third result-bearing. -/
def sampleTx : LdapTransaction :=
  { request := none
    responses :=
      [⟨ProtocolOp.BindResponse ⟨0, "ok"⟩⟩,
       ⟨ProtocolOp.SearchResultEntry⟩,
       ⟨ProtocolOp.SearchResultDone ⟨32, "no such object"⟩⟩] }

/-- A concrete operation-code constraint for the witnesses. -/
def sampleU8 : DetectUintData Nat := ⟨fun n => n == 1⟩

/-- A concrete result-code constraint for the witnesses. -/
def sampleU32 : DetectUintData Nat := ⟨fun n => n == 32⟩

/-- Witness for C1: on the three-response sample transaction, `Index (-1)`
addresses the response at position 2 for both match functions. -/
theorem c1_index_selector_witness :
    ldap_detect_responses_operation_match sampleTx ⟨sampleU8, LdapIndex.Index (-1)⟩ =
      rs_detect_u8_match (sampleTx.responses.get ⟨2, by decide⟩).protocol_op.to_u8 sampleU8 ∧
    ldap_detect_responses_result_code_match sampleTx ⟨sampleU32, LdapIndex.Index (-1)⟩ =
      (match get_ldap_result_code (sampleTx.responses.get ⟨2, by decide⟩) with
       | some rc => rs_detect_u32_match rc sampleU32
       | none => 0) :=
  (c1_index_selector sampleTx sampleU8 sampleU32 (-1) (by decide) (by decide)
    (by decide)).2 2 (by decide) (by decide)

/-- Witness for C8: on the three-response sample transaction, the index
`-4` resolves below zero at the spec level, the wrapped index is rejected
by the range check, and both match functions return `0`. -/
theorem c8_no_panic_witness :
    sampleTx.responses.length ≤ resolved_index sampleTx.responses.length (-4) ∧
    ldap_detect_responses_operation_match sampleTx ⟨sampleU8, LdapIndex.Index (-4)⟩ = 0 ∧
    ldap_detect_responses_result_code_match sampleTx ⟨sampleU32, LdapIndex.Index (-4)⟩ = 0 :=
  (c8_no_panic sampleTx sampleU8 sampleU32 (LdapIndex.Index (-4)) (by decide)).2.2
    (-4) rfl (by decide) (by decide) (by decide)
